import Mathlib

/-!
Verification of the hour-manager frontend's presentational logic.

The repository is a Vue 3 dashboard; the parts formalised here are its pure
helper functions:

* `SettingsView.vue` — the hours/percentage reconciler (`percentFromHours`,
  `hoursFromPercent`, `syncHoursFromPercent`);
* `DashboardView.vue` — the bar-geometry mapper (`weekSegmentDays`,
  `weekBarTotalHours`, `weekEffectiveWorked`, `weekBarFillPercent`,
  `weekMarkerAvailablePercent`, `weekShowAvailableMarker`, `weekBarFillClass`);
* `services/api.ts` — the empty-response handling of `fetchProjection` and
  `getSystemConfig`;
* `HourEntryModal.vue` — `hoursFromRange`.

JavaScript numbers are embedded as rationals (`ℚ`); the distinguished
non-finite values (`NaN` from `parseFloat`, missing optional fields, `null`)
are embedded as `Option`/inductive alternatives.  `Math.round` rounds half
away from zero towards `+∞`, i.e. `⌊x + 1/2⌋`, which `jsRound` captures
exactly on rationals.
-/

/-- JavaScript `Math.round`: round half towards `+∞` (`Math.round (-0.5) = 0`,
`Math.round (1.5) = 2`). -/
def jsRound (q : ℚ) : ℤ := ⌊q + 1/2⌋

/-! ## SettingsView.vue: the hours/percentage reconciler -/

/-- `const HOURS_IN_WEEK = 168` in `SettingsView.vue`. -/
def HOURS_IN_WEEK : ℚ := 168

/-- `percentFromHours` computed of `SettingsView.vue`:
`if (h <= 0 || !Number.isFinite(h)) return 0;
 return Math.round((h / HOURS_IN_WEEK) * 10000) / 100`.
The input is `weeklyHoursInput`; `none` stands for a non-finite number. -/
def percentFromHours (h : Option ℚ) : ℚ :=
  match h with
  | none => 0
  | some h => if h ≤ 0 then 0 else (jsRound ((h / HOURS_IN_WEEK) * 10000) : ℚ) / 100

/-- `hoursFromPercent` computed of `SettingsView.vue`:
`const p = parseFloat(percentInput.value);
 if (!Number.isFinite(p) || p < 0 || p > 100) return 0;
 return Math.round((p / 100) * HOURS_IN_WEEK * 100) / 100`.
The input is the parsed percent field; `none` stands for `NaN`. -/
def hoursFromPercent (p : Option ℚ) : ℚ :=
  match p with
  | none => 0
  | some p =>
    if p < 0 ∨ 100 < p then 0
    else (jsRound (p / 100 * HOURS_IN_WEEK * 100) : ℚ) / 100

/-- The two fields of `SettingsView.vue` touched by `syncHoursFromPercent`:
`weeklyHoursInput` (a number) and `percentInput` (a text field; we keep its
`parseFloat` image, `none` = not a number). -/
structure SettingsState where
  weeklyHoursInput : ℚ
  percentInput : Option ℚ
  deriving DecidableEq

/-- `syncHoursFromPercent` of `SettingsView.vue`:
`const h = hoursFromPercent.value; if (h > 0) weeklyHoursInput.value = Math.round(h * 100) / 100`. -/
def syncHoursFromPercent (s : SettingsState) : SettingsState :=
  let h := hoursFromPercent s.percentInput
  if 0 < h then { s with weeklyHoursInput := (jsRound (h * 100) : ℚ) / 100 } else s

/-! ## Basic bounds on `jsRound` -/

theorem jsRound_le (q : ℚ) : (jsRound q : ℚ) ≤ q + 1/2 := Int.floor_le _

theorem lt_jsRound (q : ℚ) : q - 1/2 < (jsRound q : ℚ) := by
  have h := Int.sub_one_lt_floor (q + 1/2)
  unfold jsRound
  push_cast at h ⊢
  linarith

/-- C3: `hoursFromPercent` returns `0` on non-finite input and on input outside
`[0,100]`, and otherwise `⌊p/100 · 168 · 100 + 1/2⌋ / 100`; at `p = 50` it
returns `84`. -/
theorem hoursFromPercent_spec :
    hoursFromPercent none = 0 ∧
    (∀ p : ℚ, p < 0 ∨ 100 < p → hoursFromPercent (some p) = 0) ∧
    (∀ p : ℚ, 0 ≤ p → p ≤ 100 →
      hoursFromPercent (some p) = (jsRound (p / 100 * 168 * 100) : ℚ) / 100) ∧
    hoursFromPercent (some 50) = 84 := by
  refine ⟨rfl, fun p hp => ?_, fun p hp0 hp1 => ?_, ?_⟩
  · simp only [hoursFromPercent, if_pos hp]
  · have : ¬ (p < 0 ∨ 100 < p) := by push_neg; exact ⟨hp0, hp1⟩
    simp only [hoursFromPercent, if_neg this, HOURS_IN_WEEK]
  · norm_num [hoursFromPercent, HOURS_IN_WEEK, jsRound]

/-- Witness for C3 at `p = 120` (out of range) and `p = 50`. -/
theorem hoursFromPercent_spec_witness :
    hoursFromPercent (some 120) = 0 ∧ hoursFromPercent (some 50) = 84 :=
  ⟨hoursFromPercent_spec.2.1 120 (Or.inr (by norm_num)),
   hoursFromPercent_spec.2.2.2⟩

/-- C4: `percentFromHours` returns `0` on non-finite and non-positive input,
and otherwise `⌊h/168 · 10000 + 1/2⌋ / 100`; at `h = 40` it returns `23.81`. -/
theorem percentFromHours_spec :
    percentFromHours none = 0 ∧
    (∀ h : ℚ, h ≤ 0 → percentFromHours (some h) = 0) ∧
    (∀ h : ℚ, 0 < h →
      percentFromHours (some h) = (jsRound (h / 168 * 10000) : ℚ) / 100) ∧
    percentFromHours (some 40) = 2381/100 := by
  refine ⟨rfl, fun h hh => ?_, fun h hh => ?_, ?_⟩
  · simp only [percentFromHours, if_pos hh]
  · simp only [percentFromHours, if_neg (not_le.mpr hh), HOURS_IN_WEEK]
  · norm_num [percentFromHours, HOURS_IN_WEEK, jsRound]

/-- Witness for C4 at `h = -3` (non-positive) and `h = 40`. -/
theorem percentFromHours_spec_witness :
    percentFromHours (some (-3)) = 0 ∧ percentFromHours (some 40) = 2381/100 :=
  ⟨percentFromHours_spec.2.1 (-3) (by norm_num), percentFromHours_spec.2.2.2⟩

/-- C5: the reconciler round trip: for `p ∈ [0,100]`,
`percentFromHours (hoursFromPercent p)` is within `±0.01` of `p`. -/
theorem reconciler_roundTrip (p : ℚ) (hp0 : 0 ≤ p) (hp1 : p ≤ 100) :
    |percentFromHours (some (hoursFromPercent (some p))) - p| ≤ 1/100 := by
  have hin : ¬ (p < 0 ∨ 100 < p) := by push_neg; exact ⟨hp0, hp1⟩
  simp only [hoursFromPercent, if_neg hin]
  have harg : p / 100 * HOURS_IN_WEEK * 100 = 168 * p := by
    unfold HOURS_IN_WEEK; ring
  rw [harg]
  have hub : ((jsRound (168 * p) : ℤ) : ℚ) ≤ 168 * p + 1/2 := jsRound_le _
  have hlb : 168 * p - 1/2 < ((jsRound (168 * p) : ℤ) : ℚ) := lt_jsRound _
  rcases le_or_lt (((jsRound (168 * p) : ℤ) : ℚ) / 100) 0 with hle | hpos
  · simp only [percentFromHours, if_pos hle]
    have hn0 : ((jsRound (168 * p) : ℤ) : ℚ) ≤ 0 := by linarith
    rw [abs_le]
    constructor <;> linarith
  · simp only [percentFromHours, if_neg (not_le.mpr hpos), HOURS_IN_WEEK]
    rw [show ((jsRound (168 * p) : ℤ) : ℚ) / 100 / 168 * 10000
          = 25 * ((jsRound (168 * p) : ℤ) : ℚ) / 42 from by ring]
    have hub2 := jsRound_le (25 * ((jsRound (168 * p) : ℤ) : ℚ) / 42)
    have hlb2 := lt_jsRound (25 * ((jsRound (168 * p) : ℤ) : ℚ) / 42)
    rw [abs_le]
    constructor <;> linarith

/-- Witness for C5 at `p = 50`. -/
theorem reconciler_roundTrip_witness :
    |percentFromHours (some (hoursFromPercent (some 50))) - 50| ≤ 1/100 :=
  reconciler_roundTrip 50 (by norm_num) (by norm_num)

/-- C6: `syncHoursFromPercent` leaves the state unchanged whenever the computed
hours value is not strictly positive (in particular for percent `= 0`, percent
outside `[0,100]`, and non-numeric percent), and otherwise overwrites only the
hours field, with the two-decimal rounding of that value. -/
theorem syncHoursFromPercent_spec (s : SettingsState) :
    (hoursFromPercent s.percentInput ≤ 0 → syncHoursFromPercent s = s) ∧
    (0 < hoursFromPercent s.percentInput →
      syncHoursFromPercent s =
        { weeklyHoursInput := (jsRound (hoursFromPercent s.percentInput * 100) : ℚ) / 100,
          percentInput := s.percentInput }) ∧
    (s.percentInput = some 0 → syncHoursFromPercent s = s) ∧
    (∀ p : ℚ, s.percentInput = some p → p < 0 ∨ 100 < p → syncHoursFromPercent s = s) ∧
    (s.percentInput = none → syncHoursFromPercent s = s) := by
  have base : hoursFromPercent s.percentInput ≤ 0 → syncHoursFromPercent s = s := by
    intro hle
    simp only [syncHoursFromPercent, if_neg (not_lt.mpr hle)]
  refine ⟨base, fun hpos => ?_, fun h0 => ?_, fun p hp hout => ?_, fun hnone => ?_⟩
  · simp only [syncHoursFromPercent, if_pos hpos]
  · apply base
    rw [h0]
    norm_num [hoursFromPercent, jsRound, HOURS_IN_WEEK]
  · apply base
    rw [hp]
    simp only [hoursFromPercent, if_pos hout]
    exact le_refl 0
  · apply base
    rw [hnone]
    simp only [hoursFromPercent]
    exact le_refl 0

/-- Witness for C6: `percent = 0` leaves `⟨40, some 0⟩` unchanged, and
`percent = 50` overwrites the hours field of `⟨40, some 50⟩` with `84`. -/
theorem syncHoursFromPercent_spec_witness :
    syncHoursFromPercent ⟨40, some 0⟩ = ⟨40, some 0⟩ ∧
    syncHoursFromPercent ⟨40, some 50⟩ = ⟨84, some 50⟩ := by
  constructor
  · exact (syncHoursFromPercent_spec ⟨40, some 0⟩).2.2.1 rfl
  · rw [(syncHoursFromPercent_spec ⟨40, some 50⟩).2.1
      (by norm_num [hoursFromPercent, jsRound, HOURS_IN_WEEK])]
    norm_num [hoursFromPercent, jsRound, HOURS_IN_WEEK]

/-! ## DashboardView.vue: the bar-geometry mapper

Week segments carry ISO date strings parsed at local noon; the only use made
of the dates is the rounded day difference, which on the embedded epoch-day
indices (`ℤ`) is exactly `weekEnd - weekStart`.  Optional numeric fields
(`totalSegmentHours`, `hoursAvailable`) are `Option ℚ`, with `none` for
`null`/`undefined`. -/

structure WeekSegment where
  weekStart : ℤ
  weekEnd : ℤ
  totalSegmentHours : Option ℚ
  totalWorked : ℚ
  totalAdjusted : ℚ
  hoursAvailable : Option ℚ
  deriving DecidableEq

/-- `const HOURS_PER_DAY = 24` in `DashboardView.vue`. -/
def HOURS_PER_DAY : ℚ := 24

/-- `weekSegmentDays`: `Math.round((end - start) / 86400000) + 1` on the noon
timestamps, i.e. the inclusive day count. -/
def weekSegmentDays (w : WeekSegment) : ℤ := w.weekEnd - w.weekStart + 1

/-- `weekBarTotalHours`:
`if (week.totalSegmentHours != null && week.totalSegmentHours > 0) return week.totalSegmentHours;
 return HOURS_PER_DAY * weekSegmentDays(week)`. -/
def weekBarTotalHours (w : WeekSegment) : ℚ :=
  match w.totalSegmentHours with
  | some t => if 0 < t then t else HOURS_PER_DAY * (weekSegmentDays w : ℚ)
  | none => HOURS_PER_DAY * (weekSegmentDays w : ℚ)

/-- `weekEffectiveWorked`: `(week?.totalWorked ?? 0) + (week?.totalAdjusted ?? 0)`
(the two totals are non-optional numbers on the projection type). -/
def weekEffectiveWorked (w : WeekSegment) : ℚ := w.totalWorked + w.totalAdjusted

/-- `weekBarFillPercent`:
`const total = weekBarTotalHours(week); if (total <= 0) return 0;
 return Math.min(100, (weekEffectiveWorked(week) / total) * 100)`. -/
def weekBarFillPercent (w : WeekSegment) : ℚ :=
  if weekBarTotalHours w ≤ 0 then 0
  else min 100 (weekEffectiveWorked w / weekBarTotalHours w * 100)

/-- `weekMarkerAvailablePercent`:
`const total = weekBarTotalHours(week);
 if (total <= 0 || week.hoursAvailable == null) return 0;
 return Math.min(100, (week.hoursAvailable / total) * 100)`. -/
def weekMarkerAvailablePercent (w : WeekSegment) : ℚ :=
  if weekBarTotalHours w ≤ 0 then 0
  else match w.hoursAvailable with
    | none => 0
    | some h => min 100 (h / weekBarTotalHours w * 100)

/-- `weekShowAvailableMarker`:
`const total = weekBarTotalHours(week);
 if (total <= 0 || week.hoursAvailable == null || week.hoursAvailable <= 0) return false;
 return week.hoursAvailable < total`. -/
def weekShowAvailableMarker (w : WeekSegment) : Bool :=
  if weekBarTotalHours w ≤ 0 then false
  else match w.hoursAvailable with
    | none => false
    | some h => if h ≤ 0 then false else decide (h < weekBarTotalHours w)

/-- The five CSS classes `week-bar-fill--neutral/low/mid/high/done` returned by
`weekBarFillClass`, as an enumeration. -/
inductive FillBucket where
  | neutral
  | low
  | mid
  | high
  | done
  deriving DecidableEq

/-- `weekBarFillClass`:
`const worked = weekEffectiveWorked(week); const available = week.hoursAvailable ?? 0;
 if (available <= 0) return neutral; if (worked >= available) return done;
 const r = worked / available;
 if (r < 0.33) return low; if (r < 0.66) return mid; return high`. -/
def weekBarFillClass (w : WeekSegment) : FillBucket :=
  if w.hoursAvailable.getD 0 ≤ 0 then FillBucket.neutral
  else if w.hoursAvailable.getD 0 ≤ weekEffectiveWorked w then FillBucket.done
  else if weekEffectiveWorked w / w.hoursAvailable.getD 0 < 33/100 then FillBucket.low
  else if weekEffectiveWorked w / w.hoursAvailable.getD 0 < 66/100 then FillBucket.mid
  else FillBucket.high

/-- C1: the color bucket classifier on a numeric `hoursAvailable`: `neutral`
iff the availability is non-positive; for positive availability, `done` iff
`worked ≥ available`; below that, the `0.33`/`0.66` ratio thresholds are
bucketed with strict `<`, so the boundary ratios fall into `mid` and `high`;
and with `worked ≥ 0` the `neutral` bucket is never produced. -/
theorem weekBarFillClass_spec (w : WeekSegment) (a : ℚ)
    (ha : w.hoursAvailable = some a) :
    (a ≤ 0 → weekBarFillClass w = FillBucket.neutral) ∧
    (0 < a → (weekBarFillClass w = FillBucket.done ↔ a ≤ weekEffectiveWorked w)) ∧
    (0 < a → weekEffectiveWorked w < a →
      ((weekEffectiveWorked w / a < 33/100 → weekBarFillClass w = FillBucket.low) ∧
       (33/100 ≤ weekEffectiveWorked w / a → weekEffectiveWorked w / a < 66/100 →
         weekBarFillClass w = FillBucket.mid) ∧
       (66/100 ≤ weekEffectiveWorked w / a → weekBarFillClass w = FillBucket.high))) ∧
    (0 ≤ weekEffectiveWorked w → 0 < a → weekBarFillClass w ≠ FillBucket.neutral) := by
  refine ⟨fun h => ?_, fun hpos => ?_, fun hpos hlt => ?_, fun hw hpos => ?_⟩
  · simp only [weekBarFillClass, ha, Option.getD_some, if_pos h]
  · constructor
    · intro hdone
      by_contra hnd
      push_neg at hnd
      have hne : weekBarFillClass w ≠ FillBucket.done := by
        simp only [weekBarFillClass, ha, Option.getD_some,
          if_neg (not_le.mpr hpos), if_neg (not_le.mpr hnd)]
        split_ifs <;> decide
      exact hne hdone
    · intro hd
      simp only [weekBarFillClass, ha, Option.getD_some,
        if_neg (not_le.mpr hpos), if_pos hd]
  · refine ⟨fun hr => ?_, fun hr1 hr2 => ?_, fun hr => ?_⟩
    · simp only [weekBarFillClass, ha, Option.getD_some,
        if_neg (not_le.mpr hpos), if_neg (not_le.mpr hlt), if_pos hr]
    · simp only [weekBarFillClass, ha, Option.getD_some,
        if_neg (not_le.mpr hpos), if_neg (not_le.mpr hlt),
        if_neg (not_lt.mpr hr1), if_pos hr2]
    · have hr1 : ¬ (weekEffectiveWorked w / a < 33/100) := not_lt.mpr (by linarith)
      have hr2 : ¬ (weekEffectiveWorked w / a < 66/100) := not_lt.mpr hr
      simp only [weekBarFillClass, ha, Option.getD_some,
        if_neg (not_le.mpr hpos), if_neg (not_le.mpr hlt), if_neg hr1, if_neg hr2]
  · simp only [weekBarFillClass, ha, Option.getD_some, if_neg (not_le.mpr hpos)]
    split_ifs <;> decide

/-- Witness for C1: a segment with `worked = 33`, `available = 100` sits
exactly on the `0.33` boundary and is classified `mid`. -/
theorem weekBarFillClass_spec_witness :
    weekBarFillClass ⟨0, 6, none, 33, 0, some 100⟩ = FillBucket.mid := by
  have h := (weekBarFillClass_spec ⟨0, 6, none, 33, 0, some 100⟩ 100 rfl).2.2.1
    (by norm_num) (by norm_num [weekEffectiveWorked])
  exact h.2.1 (by norm_num [weekEffectiveWorked]) (by norm_num [weekEffectiveWorked])

/-- C2 counterexample: the claim asserts `weekBarFillPercent ∈ [0,100]` for
every segment, but the code has no lower clamp: a negative adjusted total
(`totalWorked = 0`, `totalAdjusted = -1`, bar total `168`) yields a negative
fill percent. -/
theorem weekBarFillPercent_counterexample :
    weekBarFillPercent ⟨0, 6, none, 0, -1, none⟩ < 0 := by
  norm_num [weekBarFillPercent, weekBarTotalHours, weekSegmentDays,
    weekEffectiveWorked, HOURS_PER_DAY]

/-- C2 (amended): `weekBarFillPercent` returns `0` when `weekBarTotalHours ≤ 0`
and `min 100 (100 · effectiveWorked / barTotalHours)` otherwise, where
`weekBarTotalHours` is the upstream `totalSegmentHours` when present and
positive and `24 ×` the inclusive day count otherwise; the result is always
`≤ 100`, and lies in `[0,100]` whenever the effective worked total is
non-negative (a negative `totalWorked + totalAdjusted` makes it negative). -/
theorem weekBarFillPercent_spec (w : WeekSegment) :
    (w.totalSegmentHours = none →
      weekBarTotalHours w = 24 * ((w.weekEnd - w.weekStart + 1 : ℤ) : ℚ)) ∧
    (∀ t : ℚ, w.totalSegmentHours = some t → 0 < t → weekBarTotalHours w = t) ∧
    (∀ t : ℚ, w.totalSegmentHours = some t → t ≤ 0 →
      weekBarTotalHours w = 24 * ((w.weekEnd - w.weekStart + 1 : ℤ) : ℚ)) ∧
    (weekBarTotalHours w ≤ 0 → weekBarFillPercent w = 0) ∧
    (0 < weekBarTotalHours w →
      weekBarFillPercent w = min 100 (weekEffectiveWorked w / weekBarTotalHours w * 100)) ∧
    weekBarFillPercent w ≤ 100 ∧
    (0 ≤ weekEffectiveWorked w → 0 ≤ weekBarFillPercent w) := by
  refine ⟨fun h => ?_, fun t ht htpos => ?_, fun t ht htneg => ?_,
    fun h => ?_, fun h => ?_, ?_, fun hw => ?_⟩
  · simp only [weekBarTotalHours, h, HOURS_PER_DAY, weekSegmentDays]
  · simp only [weekBarTotalHours, ht, if_pos htpos]
  · simp only [weekBarTotalHours, ht, if_neg (not_lt.mpr htneg), HOURS_PER_DAY,
      weekSegmentDays]
  · simp only [weekBarFillPercent, if_pos h]
  · simp only [weekBarFillPercent, if_neg (not_le.mpr h)]
  · unfold weekBarFillPercent
    split_ifs
    · norm_num
    · exact min_le_left _ _
  · unfold weekBarFillPercent
    split_ifs with h
    · exact le_refl 0
    · have htot : 0 < weekBarTotalHours w := not_le.mp h
      have : 0 ≤ weekEffectiveWorked w / weekBarTotalHours w * 100 := by
        have := div_nonneg hw (le_of_lt htot)
        linarith
      exact le_min (by norm_num) this

/-- Witness for C2 (amended) on the spec's example segment
(`totalSegmentHours = 168`, `worked = 50`, `adjusted = 10`): the fill percent
is `min 100 (60/168·100) = 250/7 ≈ 35.71`, inside `[0,100]`. -/
theorem weekBarFillPercent_spec_witness :
    weekBarTotalHours ⟨0, 6, some 168, 50, 10, none⟩ = 168 ∧
    weekBarFillPercent ⟨0, 6, some 168, 50, 10, none⟩ = 250/7 ∧
    0 ≤ weekBarFillPercent ⟨0, 6, some 168, 50, 10, none⟩ := by
  have h := weekBarFillPercent_spec ⟨0, 6, some 168, 50, 10, none⟩
  refine ⟨h.2.1 168 rfl (by norm_num), ?_, h.2.2.2.2.2.2 (by norm_num [weekEffectiveWorked])⟩
  rw [h.2.2.2.2.1 (by rw [h.2.1 168 rfl (by norm_num)]; norm_num),
    h.2.1 168 rfl (by norm_num)]
  norm_num [weekEffectiveWorked]

/-- C7 counterexample: the claim asserts `weekMarkerAvailablePercent` returns
`0` (and stays within `[0,100]`) for a defined non-positive `hoursAvailable`,
but the code only guards `hoursAvailable == null`: with `hoursAvailable = -5`
over a bar total of `168` it returns the negative value `-125/42`. -/
theorem weekMarkerAvailablePercent_counterexample :
    weekMarkerAvailablePercent ⟨0, 6, none, 0, 0, some (-5)⟩ < 0 ∧
    weekMarkerAvailablePercent ⟨0, 6, none, 0, 0, some (-5)⟩ ≠ 0 := by
  norm_num [weekMarkerAvailablePercent, weekBarTotalHours, weekSegmentDays,
    HOURS_PER_DAY]

/-- C7 (amended): `weekMarkerAvailablePercent` returns `0` when
`weekBarTotalHours ≤ 0` or `hoursAvailable` is undefined, and
`min 100 (100 · hoursAvailable / barTotalHours)` when the bar total is
positive and `hoursAvailable` is defined — which is `0` at `hoursAvailable = 0`
and lies in `[0,100]` whenever `hoursAvailable ≥ 0`, but is negative (not `0`)
for a defined negative `hoursAvailable`. -/
theorem weekMarkerAvailablePercent_spec (w : WeekSegment) :
    (weekBarTotalHours w ≤ 0 → weekMarkerAvailablePercent w = 0) ∧
    (w.hoursAvailable = none → weekMarkerAvailablePercent w = 0) ∧
    (∀ h : ℚ, w.hoursAvailable = some h → 0 < weekBarTotalHours w →
      weekMarkerAvailablePercent w = min 100 (h / weekBarTotalHours w * 100)) ∧
    (w.hoursAvailable = some 0 → weekMarkerAvailablePercent w = 0) ∧
    weekMarkerAvailablePercent w ≤ 100 ∧
    (∀ h : ℚ, w.hoursAvailable = some h → 0 ≤ h → 0 ≤ weekMarkerAvailablePercent w) := by
  have hzero : ∀ h : ℚ, w.hoursAvailable = some h → 0 < weekBarTotalHours w →
      weekMarkerAvailablePercent w = min 100 (h / weekBarTotalHours w * 100) := by
    intro h hh htot
    simp only [weekMarkerAvailablePercent, if_neg (not_le.mpr htot), hh]
  refine ⟨fun h => ?_, fun h => ?_, hzero, fun h => ?_, ?_, fun h hh hpos => ?_⟩
  · simp only [weekMarkerAvailablePercent, if_pos h]
  · simp only [weekMarkerAvailablePercent, h]
    split_ifs <;> rfl
  · rcases le_or_lt (weekBarTotalHours w) 0 with htot | htot
    · simp only [weekMarkerAvailablePercent, if_pos htot]
    · rw [hzero 0 h htot]
      norm_num
  · unfold weekMarkerAvailablePercent
    split_ifs
    · norm_num
    · rcases w.hoursAvailable with _ | h
      · norm_num
      · exact min_le_left _ _
  · rcases le_or_lt (weekBarTotalHours w) 0 with htot | htot
    · simp only [weekMarkerAvailablePercent, if_pos htot]
      exact le_refl 0
    · rw [hzero h hh htot]
      have hd : 0 ≤ h / weekBarTotalHours w * 100 := by
        have := div_nonneg hpos (le_of_lt htot)
        linarith
      exact le_min (by norm_num) hd

/-- Witness for C7 (amended) on the spec's example (`hoursAvailable = 94.08`
over `totalSegmentHours = 168`): the marker sits at `min 100 (94.08/168·100)
= 56`. -/
theorem weekMarkerAvailablePercent_spec_witness :
    weekMarkerAvailablePercent ⟨0, 6, some 168, 50, 10, some (2352/25)⟩ = 56 := by
  have h := (weekMarkerAvailablePercent_spec ⟨0, 6, some 168, 50, 10, some (2352/25)⟩).2.2.1
    (2352/25) rfl
  rw [show weekBarTotalHours ⟨0, 6, some 168, 50, 10, some (2352/25)⟩ = 168 from by
    norm_num [weekBarTotalHours]] at h
  rw [h (by norm_num)]
  norm_num

/-- C8: `weekShowAvailableMarker` is `true` exactly when `hoursAvailable` is a
defined value strictly between `0` and the bar total (in particular it is
`false` for an undefined, zero or negative availability, when the availability
reaches or exceeds the bar total, and when the bar total is non-positive). -/
theorem weekShowAvailableMarker_spec (w : WeekSegment) :
    weekShowAvailableMarker w = true ↔
      ∃ a : ℚ, w.hoursAvailable = some a ∧ 0 < a ∧ a < weekBarTotalHours w := by
  unfold weekShowAvailableMarker
  rcases hA : w.hoursAvailable with _ | a
  · constructor
    · intro hcon
      split_ifs at hcon
    · rintro ⟨x, hx, -, -⟩
      exact Option.noConfusion hx
  · show (if weekBarTotalHours w ≤ 0 then false
        else if a ≤ 0 then false else decide (a < weekBarTotalHours w)) = true ↔
      ∃ x : ℚ, some a = some x ∧ 0 < x ∧ x < weekBarTotalHours w
    constructor
    · intro htrue
      split_ifs at htrue with h1 h2
      exact ⟨a, rfl, not_le.mp h2, of_decide_eq_true htrue⟩
    · rintro ⟨x, hx, hx0, hxt⟩
      obtain rfl : a = x := Option.some.inj hx
      rw [if_neg (not_le.mpr (lt_trans hx0 hxt)), if_neg (not_le.mpr hx0)]
      exact decide_eq_true hxt

/-! ## services/api.ts: empty-response handling

`fetchProjection` and `getSystemConfig` both end in
`return res.status === 204 || res.data == null || res.data === '' ? null : res.data`.
An axios response is embedded as its status and the shape of its parsed body:
JSON `null` (or an absent body), the empty string an empty body is left as,
or a decoded payload of the endpoint's dto type. -/

inductive ResponseBody (α : Type) where
  | nullBody
  | emptyString
  | payload (a : α)

structure ApiResponse (α : Type) where
  status : ℕ
  data : ResponseBody α

/-- `fetchProjection` of `services/api.ts` (the response handling; `α` is the
decoded `DashboardProjection`):
`const res = await api.get('/v1/dashboard/projection', { params });
 return res.status === 204 || res.data == null || res.data === '' ? null : res.data`. -/
def fetchProjection {α : Type} (res : ApiResponse α) : Option α :=
  if res.status = 204 then none
  else match res.data with
    | ResponseBody.nullBody => none
    | ResponseBody.emptyString => none
    | ResponseBody.payload a => some a

/-- `getSystemConfig` of `services/api.ts` (`α` is the decoded
`SystemConfigDto`):
`const res = await api.get('/v1/system-config');
 return res.status === 204 || res.data == null || res.data === '' ? null : res.data`. -/
def getSystemConfig {α : Type} (res : ApiResponse α) : Option α :=
  if res.status = 204 then none
  else match res.data with
    | ResponseBody.nullBody => none
    | ResponseBody.emptyString => none
    | ResponseBody.payload a => some a

/-- C9: both endpoints map an empty response (status 204, `null` body, or
empty-string body) to the distinguished empty value `none` instead of an
error, and return a payload exactly when the response carries one on a
non-204 status. -/
theorem api_empty_response_spec {α : Type} (res : ApiResponse α) :
    (∀ a : α, fetchProjection res = some a ↔
      res.status ≠ 204 ∧ res.data = ResponseBody.payload a) ∧
    (res.status = 204 ∨ res.data = ResponseBody.nullBody ∨
        res.data = ResponseBody.emptyString →
      fetchProjection res = none) ∧
    (∀ a : α, getSystemConfig res = some a ↔
      res.status ≠ 204 ∧ res.data = ResponseBody.payload a) ∧
    (res.status = 204 ∨ res.data = ResponseBody.nullBody ∨
        res.data = ResponseBody.emptyString →
      getSystemConfig res = none) := by
  have hswap : getSystemConfig res = fetchProjection res := rfl
  have hiff : ∀ a : α, fetchProjection res = some a ↔
      res.status ≠ 204 ∧ res.data = ResponseBody.payload a := by
    intro a
    unfold fetchProjection
    split_ifs with h204
    · simp [h204]
    · rcases hD : res.data with _ | _ | b <;> simp [hD, h204]
  have hnone : res.status = 204 ∨ res.data = ResponseBody.nullBody ∨
      res.data = ResponseBody.emptyString → fetchProjection res = none := by
    intro hcase
    unfold fetchProjection
    rcases hcase with h | h | h
    · rw [if_pos h]
    · split_ifs with h204
      · rfl
      · rw [h]
    · split_ifs with h204
      · rfl
      · rw [h]
  exact ⟨hiff, hnone, fun a => hswap ▸ hiff a, fun hcase => hswap ▸ hnone hcase⟩

/-- Witness for C9 over a `ℕ` payload: a 204 response and a null body both
come back as `none`, and a 200 response with a payload comes back as that
payload. -/
theorem api_empty_response_spec_witness :
    fetchProjection (ApiResponse.mk 204 (ResponseBody.payload (5 : ℕ))) = none ∧
    getSystemConfig (ApiResponse.mk 200 (ResponseBody.nullBody (α := ℕ))) = none ∧
    fetchProjection (ApiResponse.mk 200 (ResponseBody.payload (5 : ℕ))) = some 5 := by
  refine ⟨(api_empty_response_spec _).2.1 (Or.inl rfl),
    (api_empty_response_spec _).2.2.2 (Or.inr (Or.inl rfl)),
    ((api_empty_response_spec _).1 5).mpr ⟨by norm_num, rfl⟩⟩

/-! ## HourEntryModal.vue: `hoursFromRange` -/

/-- The overnight wrap of `hoursFromRange`:
`let minutes = ...; if (minutes < 0) minutes += 24 * 60`. -/
def wrapMinutes (m : ℤ) : ℤ := if m < 0 then m + 24 * 60 else m

/-- `hoursFromRange` of `HourEntryModal.vue`:
`const [fh, fm] = from.split(':').map(Number); const [th, tm] = to.split(':').map(Number);
 let minutes = (th * 60 + tm) - (fh * 60 + fm);
 if (minutes < 0) minutes += 24 * 60;
 return Math.round((minutes / 60) * 100) / 100`.
The two `HH:MM` strings are embedded as their parsed numeric fields. -/
def hoursFromRange (fh fm th tm : ℤ) : ℚ :=
  (jsRound ((wrapMinutes ((th * 60 + tm) - (fh * 60 + fm)) : ℤ) / (60:ℚ) * 100) : ℚ) / 100

/-- C10: over valid same-day clock times, `hoursFromRange` is non-negative and
strictly below `24`; equal times give `0`; and when the end time is earlier
than the start time, the result is the one obtained after adding the 1440
minutes of one day (the overnight wrap). -/
theorem hoursFromRange_spec (fh fm th tm : ℤ)
    (hfh0 : 0 ≤ fh) (hfh1 : fh ≤ 23) (hfm0 : 0 ≤ fm) (hfm1 : fm ≤ 59)
    (hth0 : 0 ≤ th) (hth1 : th ≤ 23) (htm0 : 0 ≤ tm) (htm1 : tm ≤ 59) :
    0 ≤ hoursFromRange fh fm th tm ∧
    hoursFromRange fh fm th tm < 24 ∧
    (fh = th ∧ fm = tm → hoursFromRange fh fm th tm = 0) ∧
    (th * 60 + tm < fh * 60 + fm →
      hoursFromRange fh fm th tm =
        (jsRound (((th * 60 + tm + 1440 - (fh * 60 + fm) : ℤ) : ℚ) / 60 * 100) : ℚ) / 100) := by
  have hw0 : 0 ≤ wrapMinutes ((th * 60 + tm) - (fh * 60 + fm)) := by
    unfold wrapMinutes
    split_ifs with h <;> linarith
  have hw1 : wrapMinutes ((th * 60 + tm) - (fh * 60 + fm)) ≤ 1439 := by
    unfold wrapMinutes
    split_ifs with h <;> linarith
  have hw0q : (0:ℚ) ≤ (wrapMinutes ((th * 60 + tm) - (fh * 60 + fm)) : ℚ) := by
    exact_mod_cast hw0
  have hw1q : (wrapMinutes ((th * 60 + tm) - (fh * 60 + fm)) : ℚ) ≤ 1439 := by
    exact_mod_cast hw1
  have hxl : (0:ℚ) ≤ (wrapMinutes ((th * 60 + tm) - (fh * 60 + fm)) : ℚ) / 60 * 100 := by
    have := div_nonneg hw0q (by norm_num : (0:ℚ) ≤ 60)
    linarith
  refine ⟨?_, ?_, ?_, ?_⟩
  · have hj : 0 ≤ jsRound ((wrapMinutes ((th * 60 + tm) - (fh * 60 + fm)) : ℤ) / (60:ℚ) * 100) := by
      apply Int.le_floor.mpr
      push_cast
      linarith
    unfold hoursFromRange
    have : (0:ℚ) ≤ (jsRound ((wrapMinutes ((th * 60 + tm) - (fh * 60 + fm)) : ℤ) / (60:ℚ) * 100) : ℚ) := by
      exact_mod_cast hj
    linarith
  · have hj := jsRound_le ((wrapMinutes ((th * 60 + tm) - (fh * 60 + fm)) : ℤ) / (60:ℚ) * 100)
    unfold hoursFromRange
    linarith
  · rintro ⟨rfl, rfl⟩
    norm_num [hoursFromRange, wrapMinutes, jsRound]
  · intro hlt
    unfold hoursFromRange wrapMinutes
    rw [if_pos (by linarith : (th * 60 + tm) - (fh * 60 + fm) < 0)]
    rw [show (th * 60 + tm) - (fh * 60 + fm) + 24 * 60
          = th * 60 + tm + 1440 - (fh * 60 + fm) from by ring]

/-- Witness for C10 at `09:00 – 18:00` and `22:00 – 06:00`. -/
theorem hoursFromRange_spec_witness :
    0 ≤ hoursFromRange 9 0 18 0 ∧ hoursFromRange 9 0 18 0 < 24 ∧
    hoursFromRange 22 0 6 0 =
      (jsRound (((6 * 60 + 0 + 1440 - (22 * 60 + 0) : ℤ) : ℚ) / 60 * 100) : ℚ) / 100 := by
  have h1 := hoursFromRange_spec 9 0 18 0 (by norm_num) (by norm_num) (by norm_num)
    (by norm_num) (by norm_num) (by norm_num) (by norm_num) (by norm_num)
  have h2 := hoursFromRange_spec 22 0 6 0 (by norm_num) (by norm_num) (by norm_num)
    (by norm_num) (by norm_num) (by norm_num) (by norm_num) (by norm_num)
  exact ⟨h1.1, h1.2.1, h2.2.2.2 (by norm_num)⟩

/-- Witness for C8 on the spec's example: `hoursAvailable = 94.08` strictly
between `0` and the bar total `168` shows the marker; `hoursAvailable = 0`
hides it. -/
theorem weekShowAvailableMarker_spec_witness :
    weekShowAvailableMarker ⟨0, 6, some 168, 50, 10, some (2352/25)⟩ = true ∧
    weekShowAvailableMarker ⟨0, 6, some 168, 50, 10, some 0⟩ ≠ true := by
  constructor
  · exact (weekShowAvailableMarker_spec ⟨0, 6, some 168, 50, 10, some (2352/25)⟩).mpr
      ⟨2352/25, rfl, by norm_num, by norm_num [weekBarTotalHours]⟩
  · intro hcon
    obtain ⟨x, hx, hx0, -⟩ :=
      (weekShowAvailableMarker_spec ⟨0, 6, some 168, 50, 10, some 0⟩).mp hcon
    cases Option.some.inj hx
    exact absurd hx0 (by norm_num)
